import Mathlib

/-!
Verification of `skycam_utils/pipeline.py` (`process_image`): a shallow
embedding of the pipeline in Lean 4, with theorems settling the spec's
claims about it.

Modelling conventions:
* Machine floats are idealised as real numbers `ℝ`; IEEE non-finite
  results (NaN, ±inf: the log of a non-positive number, the mean of an
  empty selection) are modelled by the `RVal.nan` constructor of an
  explicit value type `RVal`.
* `pathlib.Path` is modelled as a wrapper around its (normalised) string
  representation; `Path.with_suffix` is reimplemented faithfully.
* The collaborator modules (`photometry.make_background`,
  `make_segmentation_image`, `make_catalog`, `astrometry.solve_field`)
  are not part of the pipeline source; they enter as components of an
  environment record `Env`, with fallibility as documented in the spec.
* File writes are recorded as an ordered list of `WriteEvent`s (path,
  unit metadata, pixel data), so that claims about which files exist at
  the moment of a failure become statements about that list.
-/

open Classical

/-- `pathlib.Path`, identified with its normalised string form
(`str(Path(s)) = s` for an already-normalised `s`). -/
structure FilePath where
  s : String
deriving DecidableEq, Repr

/-- Index of the last `.` in a file name that starts a (non-empty) suffix:
Python `PurePath.suffix` uses the last dot at position `i` with
`0 < i < len(name) - 1`. -/
def lastSuffixDot (cs : List Char) : Option Nat :=
  ((List.range cs.length).filter
    (fun i => cs.getD i ' ' = '.' && decide (0 < i) && decide (i + 1 < cs.length))).getLast?

/-- Split a path string into directory part (up to and including the last
slash) and final component, as `PurePath.name`. -/
def splitName (cs : List Char) : List Char × List Char :=
  match lastSlash cs with
  | some i => (cs.take (i + 1), cs.drop (i + 1))
  | none => ([], cs)
where
  lastSlash (cs : List Char) : Option Nat :=
    ((List.range cs.length).filter (fun i => cs.getD i ' ' = '/')).getLast?

/-- Python `PurePath.with_suffix`: replace the final suffix of the last
path component (or append, when there is none) by `suf`. -/
def withSuffix (p : FilePath) (suf : String) : FilePath :=
  let cs := p.s.toList
  let dir := (splitName cs).1
  let name := (splitName cs).2
  let stem :=
    match lastSuffixDot name with
    | some i => name.take i
    | none => name
  ⟨String.mk (dir ++ stem ++ suf.toList)⟩

/-- Idealised float value: either a finite real or a non-finite value
(NaN / ±inf are not distinguished). -/
inductive RVal where
  | fin (x : ℝ)
  | nan
deriving Inhabited

/-- Float addition: non-finite operands propagate. -/
noncomputable def RVal.add : RVal → RVal → RVal
  | .fin x, .fin y => .fin (x + y)
  | _, _ => .nan

/-- `log10` on positive reals. -/
noncomputable def log10 (x : ℝ) : ℝ := Real.log x / Real.log 10

/-- `np.log10`: finite on positive input, non-finite (−inf or NaN) on
non-positive input. -/
noncomputable def safeLog10 (x : ℝ) : RVal :=
  if 0 < x then .fin (log10 x) else .nan

/-- `np.mean` of a 1-D array: sum over length, NaN on an empty array. -/
noncomputable def meanR (l : List ℝ) : RVal :=
  if l = [] then .nan else .fin (l.sum / l.length)

/-- One catalog calibration datum: the filter-specific reference
magnitude (`catalog[filt_col]`) and the observed instrumental magnitude
(`catalog['obs_mag']`) of one row. -/
abbrev CalRow := ℝ × ℝ

/-- Lines 49–50 of `process_image`:
`phot_off = catalog[filt_col] - catalog['obs_mag']`,
`cut = catalog[filt_col] < 3.5`, then the masked offsets
`phot_off[cut]`. -/
noncomputable def selectedOffsets (rows : List CalRow) : List ℝ :=
  let phot_off := rows.map (fun r => r.1 - r.2)
  let cut := rows.map (fun r => decide (r.1 < 3.5))
  ((phot_off.zip cut).filter (fun q => q.2)).map (fun q => q.1)

/-- Line 51: `zp = phot_off[cut].mean()`. -/
noncomputable def zeropointRows (rows : List CalRow) : RVal :=
  meanR (selectedOffsets rows)

/-- Line 33: `im.data - bkg_image.data`, elementwise. -/
noncomputable def diffImage (im bkg : List ℝ) : List ℝ :=
  List.zipWith (fun a b => a - b) im bkg

/-- The 2×2 pixel scale matrix (degrees/pixel) of a solved WCS. -/
structure WCSMatrix where
  c00 : ℝ
  c01 : ℝ
  c10 : ℝ
  c11 : ℝ

/-- `astropy.wcs.utils.proj_plane_pixel_scales`: the Euclidean norms of
the columns of the pixel scale matrix, one scale per axis (modelled from
the collaborator's documented implementation
`np.sqrt((wcs.pixel_scale_matrix**2).sum(axis=0))`). -/
noncomputable def proj_plane_pixel_scales (m : WCSMatrix) : ℝ × ℝ :=
  (Real.sqrt (m.c00 ^ 2 + m.c10 ^ 2), Real.sqrt (m.c01 ^ 2 + m.c11 ^ 2))

/-- Line 54: `pix_area = pix_scales[0] * pix_scales[1] * 3600.**2`. -/
noncomputable def pixAreaOfScales (sx sy : ℝ) : ℝ := sx * sy * 3600 ^ 2

/-- Lines 53–54: pixel angular area in arcsec² from the solved WCS. -/
noncomputable def pixArea (m : WCSMatrix) : ℝ :=
  pixAreaOfScales (proj_plane_pixel_scales m).1 (proj_plane_pixel_scales m).2

/-- Float multiplication: non-finite operands propagate. -/
noncomputable def RVal.mul : RVal → RVal → RVal
  | .fin x, .fin y => .fin (x * y)
  | _, _ => .nan

/-- Line 56, per pixel: `zp + (-2.5 * np.log10(bkg_image.data/pix_area))`. -/
noncomputable def skyPixel (zp : RVal) (pix_area b : ℝ) : RVal :=
  RVal.add zp (RVal.mul (.fin (-2.5)) (safeLog10 (b / pix_area)))

/-- The raw image as read by `CCDData.read`: pixel data plus header
key-value metadata (line 26). -/
structure Image where
  data : List ℝ
  header : List (String × String)

/-- The plate-solved image (line 39): pixel data plus the WCS attached by
the solver. -/
structure SolvedImage where
  data : List ℝ
  wcs : WCSMatrix

/-- Segmentation map: integer label per pixel. -/
structure SegmImage where
  labels : List Int

/-- One catalog row: the observed instrumental magnitude `obs_mag` and,
for every filter-specific column name, its reference magnitude
(the spec's collaborator contract guarantees columns `obs_mag` and
`{filter}_mag`). -/
structure CatRow where
  obs_mag : ℝ
  refMag : String → ℝ

/-- The in-memory catalog returned by `make_catalog` and by the
pipeline. -/
abbrev Catalog := List CatRow

/-- Failure conditions that propagate out of `process_image`:
`IOError`-kind on reading the input, `SolveFailure` from the astrometric
solver, `KeyError` on a missing header keyword. -/
inductive PipeErr where
  | fileReadError
  | solveFailure
  | keyError (key : String)
deriving DecidableEq, Repr

/-- One FITS file write performed by the pipeline: target path, unit
metadata attached to the `CCDData`, pixel data. -/
structure WriteEvent where
  path : FilePath
  unit : String
  data : List RVal

/-- The collaborators `process_image` calls, as an environment record.
Modelled from the spec: `make_background`, `solve_field`,
`make_segmentation_image` and `make_catalog` live in modules outside the
pipeline source; reading the input may fail (`IOError`-kind), the solver
may fail (`SolveFailure`), the remaining collaborators are total. -/
structure Env where
  read : FilePath → Except PipeErr Image
  make_background : Image → List ℝ
  solve_field : FilePath → Except PipeErr FilePath
  readSolved : FilePath → SolvedImage
  make_segmentation_image : SolvedImage → SegmImage
  make_catalog : SolvedImage → SegmImage → WCSMatrix → Catalog

/-- `process_image` on an already-converted `Path` (lines 26–60): each
step in source order, recording every FITS write; a raised error aborts
the remaining steps but keeps the writes already performed. -/
noncomputable def processImagePath (env : Env) (fitsfile : FilePath) :
    Except PipeErr Catalog × List WriteEvent :=
  match env.read fitsfile with
  | .error e => (.error e, [])
  | .ok im =>
    let bkgData := env.make_background im
    let w1 : WriteEvent :=
      ⟨withSuffix fitsfile ".bkg.fits", "adu", bkgData.map RVal.fin⟩
    let diff := diffImage im.data bkgData
    let diff_fp := withSuffix fitsfile ".subt.fits"
    let w2 : WriteEvent := ⟨diff_fp, "adu", diff.map RVal.fin⟩
    match env.solve_field diff_fp with
    | .error e => (.error e, [w1, w2])
    | .ok solved_fp =>
      let solved := env.readSolved solved_fp
      let segm := env.make_segmentation_image solved
      let catalog := env.make_catalog solved segm solved.wcs
      match (im.header.find? (fun kv => kv.1 = "FILTER")).map (fun kv => kv.2) with
      | none => (.error (.keyError "FILTER"), [w1, w2])
      | some filt =>
        let filt_col := filt ++ "_mag"
        let zp := zeropointRows (catalog.map (fun r => (r.refMag filt_col, r.obs_mag)))
        let pix_area := pixArea solved.wcs
        let sky_mag := bkgData.map (fun b => skyPixel zp pix_area b)
        let w3 : WriteEvent := ⟨withSuffix fitsfile ".sky.fits", "adu", sky_mag⟩
        (.ok catalog, [w1, w2, w3])

/-- The argument of `process_image`: a `str` or a `Path`. -/
inductive FitsArg where
  | ofString (s : String)
  | ofPath (p : FilePath)

/-- Lines 24–25: a string argument is converted to a `Path` before
anything else. -/
def FitsArg.toPath : FitsArg → FilePath
  | .ofString s => ⟨s⟩
  | .ofPath p => p

/-- `process_image` (line 15): convert the argument, then run the
pipeline. -/
noncomputable def process_image (env : Env) (arg : FitsArg) :
    Except PipeErr Catalog × List WriteEvent :=
  processImagePath env arg.toPath

/-! ## Helper lemmas -/

/-- Masking the offset array by the brightness cut is filtering the rows
by the cut and then taking offsets. -/
theorem selectedOffsets_eq (rows : List CalRow) :
    selectedOffsets rows =
      (rows.filter (fun r => decide (r.1 < 3.5))).map (fun r => r.1 - r.2) := by
  induction rows with
  | nil => rfl
  | cons r rows ih =>
    by_cases h : r.1 < 3.5 <;>
      simp [selectedOffsets, List.filter_cons, h] <;>
      simpa [selectedOffsets] using ih

/-- `meanR` only depends on the multiset of entries. -/
theorem meanR_perm {l l2 : List ℝ} (h : l.Perm l2) : meanR l = meanR l2 := by
  unfold meanR
  rcases eq_or_ne l [] with rfl | hne
  · have h2 : l2 = [] := h.symm.eq_nil
    simp [h2]
  · have hne2 : l2 ≠ [] := by
      intro h2
      exact hne (List.Perm.eq_nil (h2 ▸ h))
    rw [if_neg hne, if_neg hne2, h.sum_eq, h.length_eq]

/-! ## Claims -/

/-- C1: a pixel of the persisted sky-brightness map with background
value `b`, zeropoint `z` and pixel area `a > 0` equals
`z - 2.5*log10(b/a)` when `b > 0`, and is non-finite when `b ≤ 0`, with
no special handling. -/
theorem c1_sky_pixel_formula (z a b : ℝ) (ha : 0 < a) :
    (0 < b → skyPixel (.fin z) a b = .fin (z - 2.5 * log10 (b / a))) ∧
    (b ≤ 0 → skyPixel (.fin z) a b = .nan) := by
  constructor
  · intro hb
    have hpos : 0 < b / a := div_pos hb ha
    simp only [skyPixel, safeLog10, if_pos hpos, RVal.mul, RVal.add, RVal.fin.injEq]
    ring
  · intro hb
    have hnp : ¬ 0 < b / a := by
      have : b / a ≤ 0 := div_nonpos_of_nonpos_of_nonneg hb ha.le
      linarith
    simp only [skyPixel, safeLog10, if_neg hnp, RVal.mul, RVal.add]

theorem c1_sky_pixel_formula_witness :
    (0 : ℝ) < 1 ∧
      skyPixel (.fin 20) 1 100 = .fin (20 - 2.5 * log10 (100 / 1)) ∧
      skyPixel (.fin 20) 1 (-1) = .nan :=
  ⟨one_pos, (c1_sky_pixel_formula 20 1 100 one_pos).1 (by norm_num),
    (c1_sky_pixel_formula 20 1 (-1) one_pos).2 (by norm_num)⟩

/-- C2: when at least one catalog row passes the `< 3.5` brightness cut,
the zeropoint is the arithmetic mean of `reference − observed` over
exactly the rows passing the cut, and it is invariant under any
permutation of the catalog rows. -/
theorem c2_zeropoint_mean_perm_invariant (rows rows2 : List CalRow)
    (hne : rows.filter (fun r => decide (r.1 < 3.5)) ≠ [])
    (hperm : rows.Perm rows2) :
    zeropointRows rows =
      .fin (((rows.filter (fun r => decide (r.1 < 3.5))).map (fun r => r.1 - r.2)).sum /
        ((rows.filter (fun r => decide (r.1 < 3.5))).length)) ∧
    zeropointRows rows = zeropointRows rows2 := by
  constructor
  · rw [zeropointRows, selectedOffsets_eq, meanR,
      if_neg (by simpa using hne), List.length_map]
  · rw [zeropointRows, zeropointRows]
    refine meanR_perm ?_
    rw [selectedOffsets_eq, selectedOffsets_eq]
    exact ((hperm.filter _).map _)

theorem c2_zeropoint_mean_perm_invariant_witness :
    ([((3 : ℝ), (5 : ℝ)), (4, 1)].filter (fun r => decide (r.1 < 3.5)) ≠ [] ∧
      List.Perm [((3 : ℝ), (5 : ℝ)), (4, 1)] [(4, 1), (3, 5)]) ∧
    zeropointRows [((3 : ℝ), (5 : ℝ)), (4, 1)] =
      .fin ((([((3 : ℝ), (5 : ℝ)), (4, 1)].filter
          (fun r => decide (r.1 < 3.5))).map (fun r => r.1 - r.2)).sum /
        (([((3 : ℝ), (5 : ℝ)), (4, 1)].filter
          (fun r => decide (r.1 < 3.5))).length)) ∧
    zeropointRows [((3 : ℝ), (5 : ℝ)), (4, 1)] = zeropointRows [(4, 1), (3, 5)] :=
  ⟨⟨by norm_num [List.filter], List.Perm.swap _ _ _⟩,
    c2_zeropoint_mean_perm_invariant _ _ (by norm_num [List.filter])
      (List.Perm.swap _ _ _)⟩

/-- C3: the difference image persisted to `.subt.fits` equals the input
minus the background, elementwise and exactly. -/
theorem c3_difference_elementwise (I B : List ℝ) (i : Nat)
    (hI : i < I.length) (hB : i < B.length) :
    (diffImage I B).getD i 0 = I.getD i 0 - B.getD i 0 := by
  induction I generalizing B i with
  | nil => simp at hI
  | cons a as ih =>
    cases B with
    | nil => simp at hB
    | cons b bs =>
      cases i with
      | zero => simp [diffImage]
      | succ j =>
        simp only [diffImage, List.zipWith_cons_cons, List.getD_cons_succ]
        exact ih bs j (by simpa using hI) (by simpa using hB)

theorem c3_difference_elementwise_witness :
    ((1 : Nat) < ([5, 7] : List ℝ).length ∧ (1 : Nat) < ([2, 3] : List ℝ).length) ∧
    (diffImage [5, 7] [2, 3]).getD 1 0 =
      ([5, 7] : List ℝ).getD 1 0 - ([2, 3] : List ℝ).getD 1 0 :=
  ⟨⟨by norm_num, by norm_num⟩,
    c3_difference_elementwise [5, 7] [2, 3] 1 (by norm_num) (by norm_num)⟩

/-- C4: the pixel angular area from the solved WCS equals
`scale_x * scale_y * 3600^2`, is unchanged when the two axis scales are
exchanged (equivalently, when the two WCS columns are swapped), and is
always nonnegative. -/
theorem c4_pix_area_formula (m : WCSMatrix) :
    pixArea m =
      (proj_plane_pixel_scales m).1 * (proj_plane_pixel_scales m).2 * 3600 ^ 2 ∧
    (∀ sx sy : ℝ, pixAreaOfScales sx sy = pixAreaOfScales sy sx) ∧
    pixArea ⟨m.c01, m.c00, m.c11, m.c10⟩ = pixArea m ∧
    0 ≤ pixArea m := by
  refine ⟨rfl, fun sx sy => by rw [pixAreaOfScales, pixAreaOfScales]; ring, ?_, ?_⟩
  · simp only [pixArea, proj_plane_pixel_scales, pixAreaOfScales]
    ring
  · have h1 : 0 ≤ (proj_plane_pixel_scales m).1 := Real.sqrt_nonneg _
    have h2 : 0 ≤ (proj_plane_pixel_scales m).2 := Real.sqrt_nonneg _
    have : (0 : ℝ) ≤ 3600 ^ 2 := by norm_num
    calc (0 : ℝ) ≤ (proj_plane_pixel_scales m).1 * (proj_plane_pixel_scales m).2
          * 3600 ^ 2 := by positivity
    _ = pixArea m := rfl

/-- C5: when no catalog row passes the `< 3.5` brightness cut, the
zeropoint is the non-finite value (NaN of the empty mean): nothing is
raised and the result is not the finite value zero. -/
theorem c5_empty_selection_nan (rows : List CalRow)
    (h : ∀ r ∈ rows, ¬ r.1 < 3.5) :
    zeropointRows rows = .nan ∧ zeropointRows rows ≠ .fin 0 := by
  have hsel : selectedOffsets rows = [] := by
    rw [selectedOffsets_eq]
    have : rows.filter (fun r => decide (r.1 < 3.5)) = [] := by
      rw [List.filter_eq_nil_iff]
      intro r hr
      simpa using h r hr
    simp [this]
  constructor
  · rw [zeropointRows, hsel, meanR, if_pos rfl]
  · rw [zeropointRows, hsel, meanR, if_pos rfl]
    intro hcontra
    exact RVal.noConfusion hcontra

theorem c5_empty_selection_nan_witness :
    (∀ r ∈ [((4 : ℝ), (1 : ℝ))], ¬ r.1 < 3.5) ∧
    zeropointRows [((4 : ℝ), (1 : ℝ))] = .nan ∧
    zeropointRows [((4 : ℝ), (1 : ℝ))] ≠ .fin 0 :=
  ⟨by intro r hr; simp at hr; rw [hr]; norm_num,
    c5_empty_selection_nan _ (by intro r hr; simp at hr; rw [hr]; norm_num)⟩

/-- Replacing the suffix of the same path by different suffix strings
yields different paths. -/
theorem withSuffix_inj (p : FilePath) {s1 s2 : String}
    (h : withSuffix p s1 = withSuffix p s2) : s1 = s2 := by
  simp only [withSuffix, FilePath.mk.injEq] at h
  have h2 := congrArg String.data h
  exact String.ext (List.append_cancel_left h2)

/-- A concrete environment on which every pipeline step succeeds. -/
noncomputable def envOk : Env where
  read := fun _ => .ok ⟨[100], [("FILTER", "V")]⟩
  make_background := fun _ => [100]
  solve_field := fun fp => .ok fp
  readSolved := fun _ => ⟨[0], ⟨1 / 3600, 0, 0, 1 / 3600⟩⟩
  make_segmentation_image := fun _ => ⟨[1]⟩
  make_catalog := fun _ _ _ => [⟨1, fun _ => 3⟩]

/-- `envOk` with an input image whose header lacks `FILTER`. -/
noncomputable def envNoFilter : Env :=
  { envOk with read := fun _ => .ok ⟨[100], []⟩ }

/-- `envOk` with an unreadable input file. -/
noncomputable def envBadRead : Env :=
  { envOk with read := fun _ => .error .fileReadError }

/-- `envOk` with an astrometric solver that finds no match. -/
noncomputable def envNoSolve : Env :=
  { envOk with solve_field := fun _ => .error .solveFailure }

/-- C6: every persisted output of a completed run carries unit metadata
ADU — including the sky-brightness map, whose `CCDData` is constructed
with `unit=u.adu` at line 56, contradicting the documented
magnitude-per-arcsec² unit. -/
theorem c6_sky_unit_is_adu :
    (processImagePath envOk ⟨"foo.fits"⟩).2.map (fun w => w.unit) =
      ["adu", "adu", "adu"] ∧
    ("adu" : String) ≠ "mag / arcsec2" :=
  ⟨rfl, by decide⟩

/-- C7: when the input is readable and the solver succeeds but the
header lacks `FILTER`, the pipeline fails with the `KeyError`-kind
condition for `FILTER` (so the zeropoint computation is never reached),
and at that moment exactly the `.bkg.fits` and `.subt.fits` files have
been written. -/
theorem c7_missing_filter_fails_after_two_writes (env : Env) (p : FilePath)
    (im : Image) (sp : FilePath)
    (hread : env.read p = .ok im)
    (hsolve : env.solve_field (withSuffix p ".subt.fits") = .ok sp)
    (hfilt : im.header.find? (fun kv => kv.1 = "FILTER") = none) :
    (processImagePath env p).1 = .error (.keyError "FILTER") ∧
    (processImagePath env p).2.map (fun w => w.path) =
      [withSuffix p ".bkg.fits", withSuffix p ".subt.fits"] := by
  simp [processImagePath, hread, hsolve, hfilt]

theorem c7_missing_filter_fails_after_two_writes_witness :
    (envNoFilter.read ⟨"foo.fits"⟩ = .ok ⟨[100], []⟩ ∧
      envNoFilter.solve_field (withSuffix ⟨"foo.fits"⟩ ".subt.fits") =
        .ok (withSuffix ⟨"foo.fits"⟩ ".subt.fits") ∧
      (Image.mk [100] []).header.find? (fun kv => kv.1 = "FILTER") = none) ∧
    (processImagePath envNoFilter ⟨"foo.fits"⟩).1 = .error (.keyError "FILTER") ∧
    (processImagePath envNoFilter ⟨"foo.fits"⟩).2.map (fun w => w.path) =
      [withSuffix ⟨"foo.fits"⟩ ".bkg.fits", withSuffix ⟨"foo.fits"⟩ ".subt.fits"] :=
  ⟨⟨rfl, rfl, rfl⟩,
    c7_missing_filter_fails_after_two_writes envNoFilter ⟨"foo.fits"⟩
      ⟨[100], []⟩ (withSuffix ⟨"foo.fits"⟩ ".subt.fits") rfl rfl rfl⟩

/-- C8: each collaborator failure propagates to the caller unchanged and
immediately; the files written before the failing step stay on disk and
nothing later is written. An unreadable input aborts with no writes; a
`SolveFailure` leaves exactly `.bkg.fits` and `.subt.fits` (with their
already-computed data) and `.sky.fits` is never written; a missing
`FILTER` key (with the solver succeeding) leaves the same two files. -/
theorem c8_failure_propagation (env : Env) (p : FilePath) (e : PipeErr) :
    (env.read p = .error e → processImagePath env p = (.error e, [])) ∧
    (∀ im, env.read p = .ok im →
      env.solve_field (withSuffix p ".subt.fits") = .error e →
      processImagePath env p =
        (.error e,
          [⟨withSuffix p ".bkg.fits", "adu", (env.make_background im).map RVal.fin⟩,
           ⟨withSuffix p ".subt.fits", "adu",
             (diffImage im.data (env.make_background im)).map RVal.fin⟩]) ∧
      withSuffix p ".sky.fits" ∉ (processImagePath env p).2.map (fun w => w.path)) ∧
    (∀ im sp, env.read p = .ok im →
      env.solve_field (withSuffix p ".subt.fits") = .ok sp →
      im.header.find? (fun kv => kv.1 = "FILTER") = none →
      (processImagePath env p).1 = .error (.keyError "FILTER") ∧
      withSuffix p ".sky.fits" ∉ (processImagePath env p).2.map (fun w => w.path)) := by
  refine ⟨fun hread => by simp [processImagePath, hread], ?_, ?_⟩
  · intro im hread hsolve
    have hrun :
        processImagePath env p =
          (.error e,
            [⟨withSuffix p ".bkg.fits", "adu", (env.make_background im).map RVal.fin⟩,
             ⟨withSuffix p ".subt.fits", "adu",
               (diffImage im.data (env.make_background im)).map RVal.fin⟩]) := by
      simp [processImagePath, hread, hsolve]
    refine ⟨hrun, ?_⟩
    rw [hrun]
    intro hmem
    simp only [List.map_cons, List.map_nil, List.mem_cons,
      List.not_mem_nil, or_false, List.mem_singleton] at hmem
    rcases hmem with h1 | h2
    · exact absurd (withSuffix_inj p h1) (by decide)
    · exact absurd (withSuffix_inj p h2) (by decide)
  · intro im sp hread hsolve hfilt
    have h := c7_missing_filter_fails_after_two_writes env p im sp hread hsolve hfilt
    refine ⟨h.1, ?_⟩
    rw [h.2]
    intro hmem
    simp only [List.mem_cons, List.not_mem_nil, or_false, List.mem_singleton] at hmem
    rcases hmem with h1 | h2
    · exact absurd (withSuffix_inj p h1) (by decide)
    · exact absurd (withSuffix_inj p h2) (by decide)

theorem c8_failure_propagation_witness :
    processImagePath envBadRead ⟨"foo.fits"⟩ = (.error .fileReadError, []) ∧
    (processImagePath envNoSolve ⟨"foo.fits"⟩ =
      (.error .solveFailure,
        [⟨withSuffix ⟨"foo.fits"⟩ ".bkg.fits", "adu",
            (envNoSolve.make_background ⟨[100], [("FILTER", "V")]⟩).map RVal.fin⟩,
         ⟨withSuffix ⟨"foo.fits"⟩ ".subt.fits", "adu",
            (diffImage (Image.mk [100] [("FILTER", "V")]).data
              (envNoSolve.make_background ⟨[100], [("FILTER", "V")]⟩)).map RVal.fin⟩]) ∧
      withSuffix ⟨"foo.fits"⟩ ".sky.fits" ∉
        (processImagePath envNoSolve ⟨"foo.fits"⟩).2.map (fun w => w.path)) ∧
    ((processImagePath envNoFilter ⟨"foo.fits"⟩).1 = .error (.keyError "FILTER") ∧
      withSuffix ⟨"foo.fits"⟩ ".sky.fits" ∉
        (processImagePath envNoFilter ⟨"foo.fits"⟩).2.map (fun w => w.path)) :=
  ⟨(c8_failure_propagation envBadRead ⟨"foo.fits"⟩ .fileReadError).1 rfl,
   (c8_failure_propagation envNoSolve ⟨"foo.fits"⟩ .solveFailure).2.1
      ⟨[100], [("FILTER", "V")]⟩ rfl rfl,
   (c8_failure_propagation envNoFilter ⟨"foo.fits"⟩ .solveFailure).2.2
      ⟨[100], []⟩ (withSuffix ⟨"foo.fits"⟩ ".subt.fits") rfl rfl rfl⟩

/-- C9: on a successful run the three derived outputs are written at the
input path with its final suffix replaced by `.bkg.fits`, `.subt.fits`
and `.sky.fits` (so input `foo.fits` yields `foo.bkg.fits`, not
`foo.fits.bkg.fits`), and the pipeline returns the in-memory catalog,
which is persisted to no file. -/
theorem c9_output_paths_and_return (env : Env) (p : FilePath) (im : Image)
    (sp : FilePath) (kvp : String × String)
    (hread : env.read p = .ok im)
    (hsolve : env.solve_field (withSuffix p ".subt.fits") = .ok sp)
    (hfilt : im.header.find? (fun kv => kv.1 = "FILTER") = some kvp) :
    (processImagePath env p).2.map (fun w => w.path) =
      [withSuffix p ".bkg.fits", withSuffix p ".subt.fits",
        withSuffix p ".sky.fits"] ∧
    (processImagePath env p).1 =
      .ok (env.make_catalog (env.readSolved sp)
        (env.make_segmentation_image (env.readSolved sp))
        (env.readSolved sp).wcs) ∧
    withSuffix ⟨"foo.fits"⟩ ".bkg.fits" = ⟨"foo.bkg.fits"⟩ := by
  refine ⟨?_, ?_, by decide⟩ <;> simp [processImagePath, hread, hsolve, hfilt]

theorem c9_output_paths_and_return_witness :
    (envOk.read ⟨"foo.fits"⟩ = .ok ⟨[100], [("FILTER", "V")]⟩ ∧
      envOk.solve_field (withSuffix ⟨"foo.fits"⟩ ".subt.fits") =
        .ok (withSuffix ⟨"foo.fits"⟩ ".subt.fits") ∧
      (Image.mk [100] [("FILTER", "V")]).header.find?
        (fun kv => kv.1 = "FILTER") = some ("FILTER", "V")) ∧
    (processImagePath envOk ⟨"foo.fits"⟩).2.map (fun w => w.path) =
      [withSuffix ⟨"foo.fits"⟩ ".bkg.fits", withSuffix ⟨"foo.fits"⟩ ".subt.fits",
        withSuffix ⟨"foo.fits"⟩ ".sky.fits"] ∧
    (processImagePath envOk ⟨"foo.fits"⟩).1 =
      .ok (envOk.make_catalog
        (envOk.readSolved (withSuffix ⟨"foo.fits"⟩ ".subt.fits"))
        (envOk.make_segmentation_image
          (envOk.readSolved (withSuffix ⟨"foo.fits"⟩ ".subt.fits")))
        (envOk.readSolved (withSuffix ⟨"foo.fits"⟩ ".subt.fits")).wcs) ∧
    withSuffix ⟨"foo.fits"⟩ ".bkg.fits" = ⟨"foo.bkg.fits"⟩ :=
  ⟨⟨rfl, rfl, rfl⟩,
    c9_output_paths_and_return envOk ⟨"foo.fits"⟩ ⟨[100], [("FILTER", "V")]⟩
      (withSuffix ⟨"foo.fits"⟩ ".subt.fits") ("FILTER", "V") rfl rfl rfl⟩

/-- C10: calling `process_image` with the string form of a path and with
the path itself are equivalent: lines 24–25 convert the string to a
`Path` before any other operation, after which both runs coincide in
return value and recorded side effects. -/
theorem c10_str_and_path_equivalent (env : Env) (p : FilePath) :
    process_image env (.ofString p.s) = process_image env (.ofPath p) := rfl
